import Mathlib

/-!
Verification of `graphql-non-null-directive` (src/src/index.ts).

The repository exports `createNonNullDirective(opts)`, returning a record
`{ typeDefs, directiveTransformer }`.  `directiveTransformer` first runs a
`mapSchema` pass that validates input-object fields (throwing when a field
type is wrapped in `GraphQLNonNull`), then walks the type map collecting,
for each object-type field, the argument paths leading to input fields
tagged with the directive, and wraps the resolver of every field that has
at least one tagged path with a null check.

This file shallowly embeds the JavaScript values, the GraphQL type nodes
the code inspects, lodash `get`, the tagged-path discovery
(`checkInputObject`), the sorting and the wrapping resolver (`resolveFn`),
and proves or refutes the specification claims about them.
-/

namespace GqlNonNull

/-- JavaScript values as they appear in resolver argument objects.
`vnull` is the JS `null` literal; absence of a key models JS `undefined`.
Property access on a primitive (string, number, boolean) can never yield
the JS `null` value, so for the purposes of the `=== null` test performed
by the code it is modelled as an absent key. -/
inductive Value where
  | vnull
  | vstr (s : String)
  | vint (n : Int)
  | vbool (b : Bool)
  | varr (elems : List Value)
  | vobj (fields : List (String × Value))

/-- Is this value the JS `null` literal? -/
def Value.isNull : Value → Bool
  | .vnull => true
  | _ => false

/-- First binding for a key in a JS object's property list. -/
def assocLookup : List (String × Value) → String → Option Value
  | [], _ => none
  | (k, v) :: rest, key => if k = key then some v else assocLookup rest key

/-- JS property read `v[key]`: `none` models `undefined`. -/
def getKey : Value → String → Option Value
  | .vobj fields, key => assocLookup fields key
  | _, _ => none

/-- lodash `get(v, path)`.  Mirrors lodash's `baseGet`: it walks the path
while the current object is neither `null` nor `undefined`; if the walk
stops early (missing key, or a `null`/`undefined` intermediate value) the
result is `undefined` (`none`).  Only when every ancestor lookup succeeds
with a non-null value does the final segment's value come back — in
particular `some Value.vnull` is returned exactly when the full path is
present and ends at the JS `null` literal. -/
def lget (v : Value) : List String → Option Value
  | [] => none
  | key :: rest =>
    if v.isNull then none
    else match rest with
      | [] => getKey v key
      | _ :: _ =>
        match getKey v key with
        | none => none
        | some w => lget w rest

/-- The test `get(fieldArgs, inputPath) === null` from `resolveFn`. -/
def isNullAt (args : Value) (path : List String) : Bool :=
  match lget args path with
  | some w => w.isNull
  | none => false

/- GraphQL type nodes, as inspected by the code: named scalar-like leaves,
the `GraphQLNonNull` wrapper, the `GraphQLList` wrapper, and
`GraphQLInputObjectType` with its field list (`GFields`).  An input field
carries its name, the names of the directives attached to its AST node,
and its declared type. -/
mutual
inductive GType where
  | scalar (name : String)
  | nonNull (ofType : GType)
  | glist (ofType : GType)
  | inputObject (name : String) (fields : GFields)

inductive GFields where
  | fnil
  | fcons (fieldName : String) (directives : List String) (fieldType : GType) (rest : GFields)
end

/-- Unwrap exactly one outer `GraphQLNonNull` wrapper, as the code does with
`if (x instanceof GraphQLNonNull) x = x.ofType`. -/
def stripNonNull : GType → GType
  | .nonNull t => t
  | t => t

/-- The printed type signature (how graphql renders a type reference). -/
def typeSignature : GType → String
  | .scalar n => n
  | .inputObject n _ => n
  | .nonNull t => typeSignature t ++ "!"
  | .glist t => "[" ++ typeSignature t ++ "]"

/-- The body of `checkInputObject` iterating over `inputType.getFields()`
(src/src/index.ts lines 54-76).  For each input field, in order:
unwrap one outer non-null wrapper from the field's type; if the result is
an input object, recurse with the field name appended to the path; then,
independently, if the field's AST node carries a directive whose name is
the configured directive name, record the path ending at this field. -/
def checkFields (dn : String) : GFields → List String → List (List String)
  | .fnil, _ => []
  | .fcons name dirs ty rest, pre =>
    (match ty with
     | .nonNull (.inputObject _ fs) => checkFields dn fs (pre ++ [name])
     | .inputObject _ fs => checkFields dn fs (pre ++ [name])
     | _ => [])
    ++ (if dirs.contains dn then [pre ++ [name]] else [])
    ++ checkFields dn rest pre

/-- `checkInputObject` as called on an already-classified type: descend only
when the node is an input object (the `instanceof GraphQLInputObjectType`
guard), otherwise produce nothing. -/
def checkInputObject (dn : String) (t : GType) (pre : List String) : List (List String) :=
  match t with
  | .inputObject _ fs => checkFields dn fs pre
  | _ => []

/-- Stable insertion by ascending path length: the element is placed after
every element of strictly smaller length and before the first element of
equal or greater length.  `sortByLen` below therefore computes the same
list as JavaScript `taggedInputs.sort((a, b) => a.length - b.length)`,
which ECMAScript requires to be a stable sort. -/
def insertByLen (p : List String) : List (List String) → List (List String)
  | [] => [p]
  | q :: rest => if q.length < p.length then q :: insertByLen p rest else p :: q :: rest

/-- Stable sort of the tagged paths by ascending path length
(`taggedInputs.sort((a, b) => a.length - b.length)`, line 101). -/
def sortByLen : List (List String) → List (List String)
  | [] => []
  | p :: rest => insertByLen p (sortByLen rest)

/-- The invocation record of a resolver: the dynamic `this` plus the four
positional resolver arguments `(source, args, context, info)` that
`resolveFn` receives as `...resolverArgs` and forwards with
`resolve.apply(this, resolverArgs)`. -/
structure RArgs where
  thisv : Value
  source : Value
  args : Value
  context : Value
  info : Value

/-- A field resolver: either a plain function (the field's configured
resolver, or graphql's `defaultFieldResolver`, both external code modelled
as opaque functions returning a result or a thrown value), or the wrapping
`resolveFn` closure installed by the transform, which captures the sorted
tagged paths and the previous resolver. -/
inductive Resolver where
  | fn (f : RArgs → Except Value Value)
  | wrapped (paths : List (List String)) (inner : Resolver)

/-- The loop of `resolveFn` (lines 109-116): the first tagged path, in
list order, whose lookup in the field arguments is exactly `null`. -/
def firstNullPath (args : Value) : List (List String) → Option (List String)
  | [] => none
  | p :: rest => if isNullAt args p then some p else firstNullPath args rest

/-- Run a resolver.  A `wrapped` resolver is `resolveFn`
(lines 106-119): scan the captured paths in order; on the first path whose
lookup yields exactly `null`, throw `buildInputError(path.join('.') +
" cannot be null")` without invoking the inner resolver; otherwise
delegate via `resolve.apply(this, resolverArgs)`, i.e. run the inner
resolver on the unchanged invocation record and return its outcome
unmodified. -/
def Resolver.run (buildErr : String → Value) : Resolver → RArgs → Except Value Value
  | .fn f, ra => f ra
  | .wrapped paths inner, ra =>
    match firstNullPath ra.args paths with
    | some p => .error (buildErr (String.intercalate "." p ++ " cannot be null"))
    | none => inner.run buildErr ra

/-- An object-type field as the transform sees it: its name, its argument
list (name and declared type) and its current resolver (`none` when the
field has no configured `resolve` property). -/
structure ObjField where
  name : String
  args : List (String × GType)
  resolve : Option Resolver

/-- Tagged-path discovery for one object-type field (lines 84-98): for
each argument in order, unwrap one outer non-null wrapper from the
argument's declared type, and if the result is an input object, collect
the tagged paths starting at the argument's name.  All arguments
contribute to a single list in discovery order. -/
def taggedInputsOf (dn : String) (f : ObjField) : List (List String) :=
  (f.args.map (fun a => checkInputObject dn (stripNonNull a.2) [a.1])).flatten

/-- The per-field part of the transform (lines 100-120): when at least one
tagged path was discovered, sort the paths by ascending length and replace
the field's resolver by the wrapping `resolveFn`, capturing the previous
resolver (`const { resolve = defaultFieldResolver } = field`); otherwise
leave the field untouched. -/
def transformField (dn : String) (dfr : RArgs → Except Value Value) (f : ObjField) : ObjField :=
  if (taggedInputsOf dn f).length > 0 then
    { f with resolve := some (.wrapped (sortByLen (taggedInputsOf dn f)) (f.resolve.getD (.fn dfr))) }
  else f

/-- The error message thrown by the `MapperKind.INPUT_OBJECT_FIELD` mapper
(line 40).  `fieldName` is the input field's name and `typeName` is the
name of the input type that owns the field — those are the second and
third parameters graphql-tools passes to the mapper. -/
def configMsg (dn fieldName typeName : String) : String :=
  "@" ++ dn ++ " cannot be used on a field that is already non-nullish (! operator): field \"" ++ fieldName ++ ": " ++ typeName ++ "\""

/-- The placement check the mapper performs on one input-object field
(lines 35-44): it throws whenever the field's declared type is wrapped in
`GraphQLNonNull`.  The field's directive list is passed in (it is what
the directive tag lives on) but the code never consults it. -/
def validateInputField (dn fieldName typeName : String) (_dirs : List String) (ty : GType) : Except String Unit :=
  match ty with
  | .nonNull _ => .error (configMsg dn fieldName typeName)
  | _ => .ok ()

/-- The mapper applied to every field of one input object type, in field
order; the first thrown error aborts `mapSchema`. -/
def validateFields (dn typeName : String) : GFields → Except String Unit
  | .fnil => .ok ()
  | .fcons name dirs ty rest =>
    match validateInputField dn name typeName dirs ty with
    | .error m => .error m
    | .ok _ => validateFields dn typeName rest

/-- The `mapSchema` validation pass over every input object type of the
schema, in type-map order. -/
def validateSchema (dn : String) : List (String × GFields) → Except String Unit
  | [] => .ok ()
  | (typeName, fs) :: rest =>
    match validateFields dn typeName fs with
    | .error m => .error m
    | .ok _ => validateSchema dn rest

/-- A schema, reduced to what the transform inspects: its input object
types (name and fields) and the flattened list of all object-type fields
of its type map. -/
structure Schema where
  inputTypes : List (String × GFields)
  objectFields : List ObjField

/-- Outcomes of calling `directiveTransformer`: the configuration error
thrown by the validation pass, or the `TypeError` thrown by evaluating
`this.schema.getTypeMap()` when `this.schema` is `undefined`. -/
inductive TransformError where
  | configError (msg : String)
  | typeError

/-- The property names of the record returned by `createNonNullDirective`
(lines 31-126): exactly `typeDefs` and `directiveTransformer`. -/
def returnRecordProps : List String := ["typeDefs", "directiveTransformer"]

/-- The whole `directiveTransformer` method (lines 33-125).  `selfProps`
are the property names of the dynamic `this` the method is invoked on; at
the public interface this is the returned record, `returnRecordProps`.
First the `mapSchema` validation pass runs on the argument schema; then
line 52 evaluates `this.schema.getTypeMap()`: when `this` has no `schema`
property that expression reads `getTypeMap` off `undefined` and throws a
`TypeError`, so the traversal and wrapping loop (lines 78-122) and the
`return schema` (line 124) are never reached.  When a `schema` property
does exist the loop wraps every object-type field of its type map. -/
def directiveTransformer (dn : String) (dfr : RArgs → Except Value Value)
    (selfProps : List String) (s : Schema) : Except TransformError Schema :=
  match validateSchema dn s.inputTypes with
  | .error m => .error (.configError m)
  | .ok _ =>
    if selfProps.contains "schema" then
      .ok { s with objectFields := s.objectFields.map (transformField dn dfr) }
    else
      .error .typeError

/-- Substring test on character lists (needle, haystack). -/
def beginsWith : List Char → List Char → Bool
  | [], _ => true
  | _ :: _, [] => false
  | c :: cs, d :: ds => c = d && beginsWith cs ds

/-- Does the haystack contain the needle as a contiguous substring? -/
def containsSub (needle : List Char) : List Char → Bool
  | [] => beginsWith needle []
  | d :: ds => beginsWith needle (d :: ds) || containsSub needle ds

/-- String-level substring containment, used to state what the
configuration error message does and does not mention. -/
def strContains (hay needle : String) : Bool :=
  containsSub needle.data hay.data

/-- Discriminator used to tell a doubly wrapped resolver apart from a
singly wrapped one. -/
def isDoubleWrapped : Option Resolver → Bool
  | some (.wrapped _ (.wrapped _ _)) => true
  | _ => false

/- Concrete fixtures, following the spec's scenarios. -/

/-- `input UpdateUserInput { firstName: String @nonNull }` (Scenario A). -/
def updateUserInputT : GType :=
  .inputObject "UpdateUserInput" (.fcons "firstName" ["nonNull"] (.scalar "String") .fnil)

/-- A stand-in for graphql's `defaultFieldResolver` in concrete witnesses. -/
def dfrC : RArgs → Except Value Value := fun _ => .ok .vnull

/-- A concrete configured resolver whose successful result is observable. -/
def okResolver : Resolver := .fn (fun _ => .ok (.vstr "resolved"))

/-- `updateUser(input: UpdateUserInput!)` (Scenario A). -/
def fUpdateUser : ObjField :=
  { name := "updateUser", args := [("input", .nonNull updateUserInputT)], resolve := some okResolver }

/-- Invocation record with the given field arguments. -/
def raOf (args : Value) : RArgs :=
  { thisv := .vnull, source := .vnull, args := args, context := .vnull, info := .vnull }

/-- Scenario A call: `{ input: { firstName: null } }`. -/
def raA : RArgs := raOf (.vobj [("input", .vobj [("firstName", .vnull)])])

/-- Scenario B call: `{ input: {} }` (firstName omitted). -/
def raB : RArgs := raOf (.vobj [("input", .vobj [])])

/-- `input Inner { value: String @nonNull }` (Scenario D). -/
def innerT : GType :=
  .inputObject "Inner" (.fcons "value" ["nonNull"] (.scalar "String") .fnil)

/-- `input Outer { inner: Inner }` (Scenario D). -/
def outerT : GType := .inputObject "Outer" (.fcons "inner" [] innerT .fnil)

/-- A field taking `input: Outer!`, with tagged path `input.inner.value`. -/
def fNested : ObjField :=
  { name := "m", args := [("input", .nonNull outerT)], resolve := some okResolver }

/-- Call `{ input: { inner: null } }`: the strict ancestor `input.inner`
of the tagged path holds exactly `null`. -/
def raNested : RArgs := raOf (.vobj [("input", .vobj [("inner", .vnull)])])

/-- `input TwoPath { a: String @nonNull, b: Inner }`: one shallow tagged
path `input.a` and one deeper tagged path `input.b.value`. -/
def twoPathT : GType :=
  .inputObject "TwoPath" (.fcons "a" ["nonNull"] (.scalar "String") (.fcons "b" [] innerT .fnil))

/-- A field taking `input: TwoPath`. -/
def fTwoPath : ObjField :=
  { name := "m2", args := [("input", twoPathT)], resolve := some okResolver }

/-- Call `{ input: { a: null, b: { value: null } } }`: both the shallow and
the deep tagged path hold exactly `null`. -/
def raTwo : RArgs :=
  raOf (.vobj [("input", .vobj [("a", .vnull), ("b", .vobj [("value", .vnull)])])])

/-- A field whose only argument is a non-null scalar: no tagged paths. -/
def fPlain : ObjField :=
  { name := "plain", args := [("id", .nonNull (.scalar "ID"))], resolve := some okResolver }

/-- A concrete `buildInputError` whose output is observable. -/
def buildErrC : String → Value := .vstr

/-- A schema with the Scenario A input type and field, passing placement
validation. -/
def schemaA : Schema :=
  { inputTypes := [("UpdateUserInput", .fcons "firstName" ["nonNull"] (.scalar "String") .fnil)],
    objectFields := [fUpdateUser] }

/- Supporting lemmas about the sort, the null scan and the per-field
transform. -/

theorem mem_insertByLen (a p : List String) (l : List (List String)) :
    a ∈ insertByLen p l ↔ a = p ∨ a ∈ l := by
  induction l with
  | nil => simp [insertByLen]
  | cons q rest ih =>
    by_cases h : q.length < p.length
    · simp only [insertByLen, if_pos h, List.mem_cons, ih]
      tauto
    · simp only [insertByLen, if_neg h, List.mem_cons]

theorem mem_sortByLen (a : List String) (l : List (List String)) :
    a ∈ sortByLen l ↔ a ∈ l := by
  induction l with
  | nil => simp [sortByLen]
  | cons p rest ih => simp [sortByLen, mem_insertByLen, ih]

theorem pairwise_insertByLen (p : List String) (l : List (List String))
    (h : l.Pairwise (fun a b => a.length ≤ b.length)) :
    (insertByLen p l).Pairwise (fun a b => a.length ≤ b.length) := by
  induction l with
  | nil => simp [insertByLen]
  | cons q rest ih =>
    rcases List.pairwise_cons.mp h with ⟨hq, hrest⟩
    by_cases hlt : q.length < p.length
    · simp only [insertByLen, if_pos hlt]
      refine List.pairwise_cons.mpr ⟨?_, ih hrest⟩
      intro b hb
      rcases (mem_insertByLen b p rest).mp hb with rfl | hb'
      · exact Nat.le_of_lt hlt
      · exact hq b hb'
    · simp only [insertByLen, if_neg hlt]
      refine List.pairwise_cons.mpr ⟨?_, h⟩
      intro b hb
      rcases List.mem_cons.mp hb with rfl | hb'
      · exact Nat.le_of_not_lt hlt
      · exact Nat.le_trans (Nat.le_of_not_lt hlt) (hq b hb')

theorem pairwise_sortByLen (l : List (List String)) :
    (sortByLen l).Pairwise (fun a b => a.length ≤ b.length) := by
  induction l with
  | nil => simp [sortByLen]
  | cons p rest ih => exact pairwise_insertByLen p _ ih

theorem firstNullPath_eq_none (args : Value) (l : List (List String)) :
    firstNullPath args l = none ↔ ∀ p ∈ l, isNullAt args p = false := by
  induction l with
  | nil => simp [firstNullPath]
  | cons q rest ih =>
    by_cases h : isNullAt args q
    · simp [firstNullPath, h]
    · simp [firstNullPath, h, ih]

theorem firstNullPath_mem (args : Value) (l : List (List String)) (p : List String)
    (h : firstNullPath args l = some p) : p ∈ l ∧ isNullAt args p = true := by
  induction l with
  | nil => simp [firstNullPath] at h
  | cons q rest ih =>
    by_cases hq : isNullAt args q
    · simp only [firstNullPath, if_pos hq, Option.some.injEq] at h
      subst h
      exact ⟨List.mem_cons_self q rest, hq⟩
    · simp only [firstNullPath, if_neg hq] at h
      rcases ih h with ⟨h1, h2⟩
      exact ⟨List.mem_cons_of_mem _ h1, h2⟩

theorem firstNullPath_min (args : Value) (l : List (List String))
    (hs : l.Pairwise (fun a b => a.length ≤ b.length)) (p : List String)
    (h : firstNullPath args l = some p) :
    ∀ q ∈ l, isNullAt args q = true → p.length ≤ q.length := by
  induction l with
  | nil => simp [firstNullPath] at h
  | cons r rest ih =>
    rcases List.pairwise_cons.mp hs with ⟨hr, hrest⟩
    by_cases hq : isNullAt args r
    · simp only [firstNullPath, if_pos hq, Option.some.injEq] at h
      subst h
      intro q hqmem hqnull
      rcases List.mem_cons.mp hqmem with rfl | hmem
      · exact Nat.le_refl _
      · exact hr q hmem
    · simp only [firstNullPath, if_neg hq] at h
      intro q hqmem hqnull
      rcases List.mem_cons.mp hqmem with rfl | hmem
      · exact absurd hqnull hq
      · exact ih hrest h q hmem hqnull

theorem firstNullPath_isSome (args : Value) (l : List (List String)) (q : List String)
    (hq : q ∈ l) (hn : isNullAt args q = true) : ∃ p, firstNullPath args l = some p := by
  cases hfc : firstNullPath args l with
  | some p => exact ⟨p, rfl⟩
  | none =>
    have hfalse := (firstNullPath_eq_none args l).mp hfc q hq
    rw [hn] at hfalse
    cases hfalse

theorem transformField_args (dn : String) (dfr : RArgs → Except Value Value) (f : ObjField) :
    (transformField dn dfr f).args = f.args := by
  unfold transformField
  split <;> rfl

theorem taggedInputsOf_transformField (dn dn' : String) (dfr : RArgs → Except Value Value)
    (f : ObjField) :
    taggedInputsOf dn (transformField dn' dfr f) = taggedInputsOf dn f := by
  unfold taggedInputsOf
  rw [transformField_args]

theorem transformField_resolve (dn : String) (dfr : RArgs → Except Value Value) (f : ObjField)
    (h : taggedInputsOf dn f ≠ []) :
    (transformField dn dfr f).resolve
      = some (.wrapped (sortByLen (taggedInputsOf dn f)) (f.resolve.getD (.fn dfr))) := by
  unfold transformField
  have hlen : 0 < (taggedInputsOf dn f).length := List.length_pos.mpr h
  simp [hlen]

theorem transformField_untouched (dn : String) (dfr : RArgs → Except Value Value) (f : ObjField)
    (h : taggedInputsOf dn f = []) : transformField dn dfr f = f := by
  unfold transformField
  simp [h]

theorem run_wrapped_error (be : String → Value) (ps : List (List String)) (inner : Resolver)
    (ra : RArgs) (p : List String) (h : firstNullPath ra.args ps = some p) :
    (Resolver.wrapped ps inner).run be ra
      = .error (be (String.intercalate "." p ++ " cannot be null")) := by
  simp [Resolver.run, h]

theorem run_wrapped_delegate (be : String → Value) (ps : List (List String)) (inner : Resolver)
    (ra : RArgs) (h : firstNullPath ra.args ps = none) :
    (Resolver.wrapped ps inner).run be ra = inner.run be ra := by
  simp [Resolver.run, h]

theorem lget_cons_null (v : Value) (k : String) (rest : List String) (h : v.isNull = true) :
    lget v (k :: rest) = none := by
  simp [lget, h]

theorem lget_single (v : Value) (k : String) (h : v.isNull = false) :
    lget v [k] = getKey v k := by
  simp [lget, h]

theorem lget_cons_cons (v : Value) (k r : String) (rs : List String) (h : v.isNull = false) :
    lget v (k :: r :: rs)
      = match getKey v k with
        | none => none
        | some w => lget w (r :: rs) := by
  simp [lget, h]

theorem isNullAt_iff (args : Value) (p : List String) :
    isNullAt args p = true ↔ lget args p = some .vnull := by
  unfold isNullAt
  cases h : lget args p with
  | none => simp
  | some w => cases w <;> simp [Value.isNull]

/-- A lookup whose strict ancestor holds exactly `null` stops early and
yields `undefined` (`none`), mirroring the `while (object != null)` loop
of lodash `baseGet`. -/
theorem lget_append_of_null (pre : List String) :
    ∀ (args : Value) (suf : List String), suf ≠ [] → lget args pre = some .vnull →
      lget args (pre ++ suf) = none := by
  induction pre with
  | nil =>
    intro args suf _ h
    simp [lget] at h
  | cons k pre' ih =>
    intro args suf hs h
    cases ha : args.isNull with
    | true => rw [lget_cons_null args k _ ha] at h; cases h
    | false =>
      cases pre' with
      | nil =>
        rw [lget_single args k ha] at h
        cases suf with
        | nil => exact absurd rfl hs
        | cons s ss =>
          rw [List.cons_append, List.nil_append,
            lget_cons_cons args k s ss ha, h]
          exact lget_cons_null _ s ss rfl
      | cons p ps =>
        rw [lget_cons_cons args k p ps ha] at h
        cases hg : getKey args k with
        | none => rw [hg] at h; cases h
        | some w =>
          rw [hg] at h
          rw [List.cons_append, List.cons_append,
            lget_cons_cons args k p (ps ++ suf) ha, hg]
          have := ih w suf hs h
          rwa [List.cons_append] at this

theorem beginsWith_self_append (n rest : List Char) : beginsWith n (n ++ rest) = true := by
  induction n with
  | nil => rfl
  | cons c cs ih => simp [beginsWith, ih]

theorem containsSub_of_eq_append (n a b : List Char) :
    containsSub n (a ++ n ++ b) = true := by
  induction a with
  | nil =>
    cases n with
    | nil => cases b <;> rfl
    | cons c cs =>
      have h1 : containsSub (c :: cs) (([] : List Char) ++ (c :: cs) ++ b)
          = (beginsWith (c :: cs) ((c :: cs) ++ b) || containsSub (c :: cs) (cs ++ b)) := rfl
      rw [h1, beginsWith_self_append, Bool.true_or]
  | cons d ds ih =>
    have h1 : containsSub n ((d :: ds) ++ n ++ b)
        = (beginsWith n ((d :: ds) ++ n ++ b) || containsSub n (ds ++ n ++ b)) := rfl
    rw [h1, ih, Bool.or_true]

/-- Containment at string level: `y` occurs in `x ++ y ++ z`. -/
theorem strContains_append (x y z : String) : strContains (x ++ y ++ z) y = true := by
  unfold strContains
  rw [String.data_append, String.data_append]
  exact containsSub_of_eq_append y.data x.data z.data

/-- The configuration message split around the field name. -/
theorem configMsg_around_fieldName (dn fn tn : String) :
    (configMsg dn fn tn).data
      = ("@".data ++ dn.data
          ++ " cannot be used on a field that is already non-nullish (! operator): field \"".data)
        ++ fn.data ++ (": ".data ++ tn.data ++ "\"".data) := by
  simp [configMsg, String.data_append, List.append_assoc]

/-- The configuration message split around the owning type name. -/
theorem configMsg_around_typeName (dn fn tn : String) :
    (configMsg dn fn tn).data
      = ("@".data ++ dn.data
          ++ " cannot be used on a field that is already non-nullish (! operator): field \"".data
          ++ fn.data ++ ": ".data)
        ++ tn.data ++ "\"".data := by
  simp [configMsg, String.data_append, List.append_assoc]

/- Claim theorems. -/

/-- C1: for an object-type field with at least one tagged path whose
nested lookup in the call arguments yields exactly the null value, the
transform has installed the wrapping resolver, and running it throws the
error built by `buildInputError` whose message is the dot-joined path
followed by " cannot be null" — the path being a tagged path whose lookup
is null.  The outcome is the same for every inner resolver, so the
original resolver is never invoked. -/
theorem c1_null_tagged_path_raises (dn : String) (dfr : RArgs → Except Value Value)
    (f : ObjField) (ra : RArgs)
    (hnull : ∃ q ∈ taggedInputsOf dn f, isNullAt ra.args q = true) :
    ∃ p ∈ taggedInputsOf dn f, isNullAt ra.args p = true ∧
      (transformField dn dfr f).resolve
        = some (.wrapped (sortByLen (taggedInputsOf dn f)) (f.resolve.getD (.fn dfr))) ∧
      ∀ (buildErr : String → Value) (inner : Resolver),
        (Resolver.wrapped (sortByLen (taggedInputsOf dn f)) inner).run buildErr ra
          = .error (buildErr (String.intercalate "." p ++ " cannot be null")) := by
  obtain ⟨q, hqmem, hqnull⟩ := hnull
  have hqmem' : q ∈ sortByLen (taggedInputsOf dn f) := (mem_sortByLen _ _).mpr hqmem
  obtain ⟨p, hp⟩ := firstNullPath_isSome ra.args _ q hqmem' hqnull
  obtain ⟨hpmem, hpnull⟩ := firstNullPath_mem _ _ _ hp
  refine ⟨p, (mem_sortByLen _ _).mp hpmem, hpnull, ?_, ?_⟩
  · refine transformField_resolve dn dfr f ?_
    intro hemp
    rw [hemp] at hqmem
    cases hqmem
  · intro buildErr inner
    exact run_wrapped_error buildErr _ inner ra p hp

/-- C1 witness: Scenario A — field `updateUser(input: UpdateUserInput!)`
with tagged path `input.firstName`, called with
`{ input: { firstName: null } }`. -/
theorem c1_witness :
    (∃ q ∈ taggedInputsOf "nonNull" fUpdateUser, isNullAt raA.args q = true) ∧
    ∃ p ∈ taggedInputsOf "nonNull" fUpdateUser, isNullAt raA.args p = true ∧
      (transformField "nonNull" dfrC fUpdateUser).resolve
        = some (.wrapped (sortByLen (taggedInputsOf "nonNull" fUpdateUser))
            (fUpdateUser.resolve.getD (.fn dfrC))) ∧
      ∀ (buildErr : String → Value) (inner : Resolver),
        (Resolver.wrapped (sortByLen (taggedInputsOf "nonNull" fUpdateUser)) inner).run buildErr raA
          = .error (buildErr (String.intercalate "." p ++ " cannot be null")) :=
  ⟨⟨["input", "firstName"], by decide, by decide⟩,
    c1_null_tagged_path_raises "nonNull" dfrC fUpdateUser raA
      ⟨["input", "firstName"], by decide, by decide⟩⟩

/-- C2: the record returned by `createNonNullDirective` has no `schema`
property, so invoking its `directiveTransformer` at the public interface
evaluates `this.schema.getTypeMap()` with `this.schema` undefined: on
every schema that passes placement validation the call throws the
`TypeError` after validation and before any wrapping, and for every input
the rebuilt schema is never returned. -/
theorem c2_this_schema_type_error (dn : String) (dfr : RArgs → Except Value Value) :
    returnRecordProps.contains "schema" = false ∧
    (∀ s : Schema, validateSchema dn s.inputTypes = .ok () →
      directiveTransformer dn dfr returnRecordProps s = .error .typeError) ∧
    (∀ s out : Schema, directiveTransformer dn dfr returnRecordProps s ≠ .ok out) := by
  refine ⟨rfl, ?_, ?_⟩
  · intro s hv
    unfold directiveTransformer
    rw [hv]
    rfl
  · intro s out h
    unfold directiveTransformer at h
    cases hv : validateSchema dn s.inputTypes with
    | error m => rw [hv] at h; cases h
    | ok u => rw [hv] at h; cases u; cases h

/-- C2 witness: a concrete valid schema (Scenario A's) on which the call
throws the `TypeError`. -/
theorem c2_witness :
    validateSchema "nonNull" schemaA.inputTypes = .ok () ∧
    directiveTransformer "nonNull" dfrC returnRecordProps schemaA = .error .typeError :=
  ⟨rfl, (c2_this_schema_type_error "nonNull" dfrC).2.1 schemaA rfl⟩

/-- C3 (code bug): the placement check of the `mapSchema` pass never
consults the field's directive list; it throws for every input field
whose declared type is non-null, even one carrying no directive at all.
Here the untagged field `firstName: String!` on `UpdateUserInput` is
rejected, although the spec says untagged non-null fields pass validation
unchanged. -/
theorem c3_untagged_nonnull_rejected :
    validateInputField "nonNull" "firstName" "UpdateUserInput" [] (.nonNull (.scalar "String"))
      = .error ("@nonNull cannot be used on a field that is already non-nullish (! operator): field \"firstName: UpdateUserInput\"") ∧
    ∀ (dirs₁ dirs₂ : List String) (fn tn : String) (ty : GType),
      validateInputField "nonNull" fn tn dirs₁ ty = validateInputField "nonNull" fn tn dirs₂ ty := by
  refine ⟨rfl, ?_⟩
  intro dirs₁ dirs₂ fn tn ty
  cases ty <;> rfl

/-- C4 (counterexample): the field of Scenario D has the single tagged
path `input.inner.value`; calling with `{ input: { inner: null } }` puts
exactly `null` at the strict ancestor segment `input.inner`, yet the
wrapped resolver does not raise: it delegates to the original resolver,
which succeeds. -/
theorem c4_counterexample :
    taggedInputsOf "nonNull" fNested = [["input", "inner", "value"]] ∧
    isNullAt raNested.args ["input", "inner"] = true ∧
    Resolver.run buildErrC ((transformField "nonNull" dfrC fNested).resolve.getD (.fn dfrC)) raNested
      = .ok (.vstr "resolved") :=
  ⟨rfl, rfl, rfl⟩

/-- C4 (amended): an explicit null at a strict ancestor segment of a
tagged path does not trigger the error for that path: the lodash lookup
of the full path stops at the null ancestor and yields `undefined`
(`none`), so the path's `=== null` test is false and the null scan over
that path finds nothing.  Only a null at the final segment, with every
strict ancestor lookup non-null, triggers the error. -/
theorem c4_null_ancestor_no_error (args : Value) (pre suf : List String)
    (hsuf : suf ≠ []) (hnull : isNullAt args pre = true) :
    lget args (pre ++ suf) = none ∧ isNullAt args (pre ++ suf) = false ∧
    firstNullPath args [pre ++ suf] = none := by
  have hpre : lget args pre = some .vnull := (isNullAt_iff args pre).mp hnull
  have h1 : lget args (pre ++ suf) = none := lget_append_of_null pre args suf hsuf hpre
  have h2 : isNullAt args (pre ++ suf) = false := by
    unfold isNullAt
    rw [h1]
  refine ⟨h1, h2, ?_⟩
  simp [firstNullPath, h2]

/-- C4 amended-claim witness: Scenario D's null ancestor, concretely. -/
theorem c4_witness :
    ((["value"] : List String) ≠ [] ∧ isNullAt raNested.args ["input", "inner"] = true) ∧
    (lget raNested.args (["input", "inner"] ++ ["value"]) = none ∧
      isNullAt raNested.args (["input", "inner"] ++ ["value"]) = false ∧
      firstNullPath raNested.args [["input", "inner"] ++ ["value"]] = none) :=
  ⟨⟨by decide, by decide⟩,
    c4_null_ancestor_no_error raNested.args ["input", "inner"] ["value"] (by decide) (by decide)⟩

/-- C5 (counterexample): the transform keeps no record of already
processed schemas (there is no identity set anywhere in the code); the
second application of the per-field transform wraps the already wrapped
resolver again, so it is not a no-op: the field after two applications
differs from the field after one, its resolver being doubly wrapped. -/
theorem c5_counterexample :
    transformField "nonNull" dfrC (transformField "nonNull" dfrC fUpdateUser)
      ≠ transformField "nonNull" dfrC fUpdateUser ∧
    isDoubleWrapped
      (transformField "nonNull" dfrC (transformField "nonNull" dfrC fUpdateUser)).resolve = true ∧
    isDoubleWrapped (transformField "nonNull" dfrC fUpdateUser).resolve = false := by
  refine ⟨?_, rfl, rfl⟩
  intro h
  have h2 : true = false := congrArg (fun g : ObjField => isDoubleWrapped g.resolve) h
  cases h2

/-- C5 (amended): applying the transform twice to the same field yields
the same observable resolver behavior as applying it once — the duplicate
wrapper repeats the same null checks over the same sorted paths, raising
the identical error or delegating identically — but this holds despite
double-wrapping, not through any identity-keyed no-op. -/
theorem c5_twice_same_behavior (dn : String) (dfr : RArgs → Except Value Value)
    (buildErr : String → Value) (f : ObjField) (ra : RArgs) :
    Resolver.run buildErr
        ((transformField dn dfr (transformField dn dfr f)).resolve.getD (.fn dfr)) ra
      = Resolver.run buildErr ((transformField dn dfr f).resolve.getD (.fn dfr)) ra := by
  by_cases h : taggedInputsOf dn f = []
  · have h2 : taggedInputsOf dn (transformField dn dfr f) = [] := by
      rw [taggedInputsOf_transformField]
      exact h
    rw [transformField_untouched dn dfr _ h2]
  · have htag2 : taggedInputsOf dn (transformField dn dfr f) ≠ [] := by
      rw [taggedInputsOf_transformField]
      exact h
    have h1 := transformField_resolve dn dfr f h
    have h2 := transformField_resolve dn dfr (transformField dn dfr f) htag2
    rw [taggedInputsOf_transformField] at h2
    rw [h2, Option.getD_some, h1, Option.getD_some]
    cases hfn : firstNullPath ra.args (sortByLen (taggedInputsOf dn f)) with
    | some p =>
      rw [run_wrapped_error buildErr (sortByLen (taggedInputsOf dn f))
            (Resolver.wrapped (sortByLen (taggedInputsOf dn f)) (f.resolve.getD (Resolver.fn dfr)))
            ra p hfn,
          run_wrapped_error buildErr (sortByLen (taggedInputsOf dn f))
            (f.resolve.getD (Resolver.fn dfr)) ra p hfn]
    | none =>
      rw [run_wrapped_delegate buildErr (sortByLen (taggedInputsOf dn f))
            (Resolver.wrapped (sortByLen (taggedInputsOf dn f)) (f.resolve.getD (Resolver.fn dfr)))
            ra hfn,
          run_wrapped_delegate buildErr (sortByLen (taggedInputsOf dn f))
            (f.resolve.getD (Resolver.fn dfr)) ra hfn]

/-- C6: when no tagged path's lookup yields exactly null (absent paths
included), the wrapped resolver behaves exactly like the previous
resolver applied to the unchanged invocation record: a configured
resolver function receives the same record and its outcome (result or
failure) is returned unmodified, and when none was configured the default
property-read resolver is invoked instead. -/
theorem c6_no_null_delegates (dn : String) (dfr : RArgs → Except Value Value)
    (buildErr : String → Value) (f : ObjField) (ra : RArgs)
    (h : ∀ p ∈ taggedInputsOf dn f, isNullAt ra.args p = false) :
    Resolver.run buildErr ((transformField dn dfr f).resolve.getD (.fn dfr)) ra
      = Resolver.run buildErr (f.resolve.getD (.fn dfr)) ra ∧
    (∀ g : RArgs → Except Value Value, f.resolve = some (.fn g) →
      Resolver.run buildErr ((transformField dn dfr f).resolve.getD (.fn dfr)) ra = g ra) ∧
    (f.resolve = none →
      Resolver.run buildErr ((transformField dn dfr f).resolve.getD (.fn dfr)) ra = dfr ra) := by
  have hmain : Resolver.run buildErr ((transformField dn dfr f).resolve.getD (.fn dfr)) ra
      = Resolver.run buildErr (f.resolve.getD (.fn dfr)) ra := by
    by_cases he : taggedInputsOf dn f = []
    · rw [transformField_untouched dn dfr f he]
    · rw [transformField_resolve dn dfr f he, Option.getD_some]
      apply run_wrapped_delegate
      apply (firstNullPath_eq_none _ _).mpr
      intro p hp
      exact h p ((mem_sortByLen _ _).mp hp)
  refine ⟨hmain, ?_, ?_⟩
  · intro g hg
    rw [hmain, hg, Option.getD_some]
    rfl
  · intro hg
    rw [hmain, hg]
    rfl

/-- C6 witness: Scenario B — `{ input: {} }` with firstName omitted; the
wrapper delegates to the configured resolver. -/
theorem c6_witness :
    (∀ p ∈ taggedInputsOf "nonNull" fUpdateUser, isNullAt raB.args p = false) ∧
    Resolver.run buildErrC
        ((transformField "nonNull" dfrC fUpdateUser).resolve.getD (.fn dfrC)) raB
      = Resolver.run buildErrC (fUpdateUser.resolve.getD (.fn dfrC)) raB :=
  ⟨by decide, (c6_no_null_delegates "nonNull" dfrC buildErrC fUpdateUser raB (by decide)).1⟩

/-- C7 (counterexample): the tagged non-null field
`firstName: String! @nonNull` on `UpdateUserInput` is rejected with a
message that does not contain the declared type signature "String!" (nor
even "String"): graphql-tools passes the owning type's name as the third
mapper argument, and that is what appears after the colon. -/
theorem c7_counterexample :
    validateInputField "nonNull" "firstName" "UpdateUserInput" ["nonNull"]
        (.nonNull (.scalar "String"))
      = .error (configMsg "nonNull" "firstName" "UpdateUserInput") ∧
    typeSignature (.nonNull (.scalar "String")) = "String!" ∧
    strContains (configMsg "nonNull" "firstName" "UpdateUserInput") "String!" = false ∧
    strContains (configMsg "nonNull" "firstName" "UpdateUserInput") "String" = false := by
  refine ⟨rfl, rfl, ?_, ?_⟩ <;> decide

/-- C7 (amended): whenever the placement check rejects a field, the
message is exactly `@<dn> cannot be used on a field that is already
non-nullish (! operator): field "<fieldName>: <owningTypeName>"`; it
contains the field name and the owning input type's name (rendered after
the colon, where a type signature would be expected), but not the
declared type signature. -/
theorem c7_message_contents (dn fieldName typeName : String) (dirs : List String) (t : GType) :
    validateInputField dn fieldName typeName dirs (.nonNull t)
      = .error (configMsg dn fieldName typeName) ∧
    strContains (configMsg dn fieldName typeName) fieldName = true ∧
    strContains (configMsg dn fieldName typeName) typeName = true := by
  refine ⟨rfl, ?_, ?_⟩
  · unfold strContains
    rw [configMsg_around_fieldName]
    exact containsSub_of_eq_append fieldName.data _ _
  · unfold strContains
    rw [configMsg_around_typeName]
    exact containsSub_of_eq_append typeName.data _ _

/-- C8: a field whose argument traversal discovers no tagged path is left
completely untouched by the transform; in particular its resolver is the
very resolver it had before (reference identity in the code, equality in
this model). -/
theorem c8_no_tagged_paths_identity (dn : String) (dfr : RArgs → Except Value Value)
    (f : ObjField) (h : taggedInputsOf dn f = []) :
    transformField dn dfr f = f ∧ (transformField dn dfr f).resolve = f.resolve := by
  have huntouched := transformField_untouched dn dfr f h
  exact ⟨huntouched, by rw [huntouched]⟩

/-- C8 witness: a field whose only argument is a non-null scalar. -/
theorem c8_witness :
    taggedInputsOf "nonNull" fPlain = [] ∧
    (transformField "nonNull" dfrC fPlain = fPlain ∧
      (transformField "nonNull" dfrC fPlain).resolve = fPlain.resolve) :=
  ⟨by decide, c8_no_tagged_paths_identity "nonNull" dfrC fPlain (by decide)⟩

/-- C9: the enforced path list is the tagged paths sorted by ascending
length, the wrapper scans them in that order, and whenever some tagged
path's lookup is null the reported path is one of minimal length among
all null-matching tagged paths — so with a shallower and a deeper path
both matching null, the error names the shallower one. -/
theorem c9_sorted_shallowest_reported (dn : String) (dfr : RArgs → Except Value Value)
    (f : ObjField) (ra : RArgs) (q : List String)
    (hq : q ∈ taggedInputsOf dn f) (hnull : isNullAt ra.args q = true) :
    (sortByLen (taggedInputsOf dn f)).Pairwise (fun a b => a.length ≤ b.length) ∧
    (transformField dn dfr f).resolve
      = some (.wrapped (sortByLen (taggedInputsOf dn f)) (f.resolve.getD (.fn dfr))) ∧
    ∃ p, firstNullPath ra.args (sortByLen (taggedInputsOf dn f)) = some p ∧
      p ∈ taggedInputsOf dn f ∧ isNullAt ra.args p = true ∧
      (∀ r ∈ taggedInputsOf dn f, isNullAt ra.args r = true → p.length ≤ r.length) ∧
      ∀ (buildErr : String → Value) (inner : Resolver),
        (Resolver.wrapped (sortByLen (taggedInputsOf dn f)) inner).run buildErr ra
          = .error (buildErr (String.intercalate "." p ++ " cannot be null")) := by
  have hsorted := pairwise_sortByLen (taggedInputsOf dn f)
  have hqmem' : q ∈ sortByLen (taggedInputsOf dn f) := (mem_sortByLen _ _).mpr hq
  obtain ⟨p, hp⟩ := firstNullPath_isSome ra.args _ q hqmem' hnull
  obtain ⟨hpmem, hpnull⟩ := firstNullPath_mem _ _ _ hp
  have hmin := firstNullPath_min ra.args _ hsorted p hp
  refine ⟨hsorted, ?_, p, hp, (mem_sortByLen _ _).mp hpmem, hpnull, ?_, ?_⟩
  · refine transformField_resolve dn dfr f ?_
    intro hemp
    rw [hemp] at hq
    cases hq
  · intro r hr hrnull
    exact hmin r ((mem_sortByLen _ _).mpr hr) hrnull
  · intro buildErr inner
    exact run_wrapped_error buildErr _ inner ra p hp

/-- C9 witness: `input TwoPath { a: String @nonNull, b: Inner }` with
both `input.a` and `input.b.value` null. -/
theorem c9_witness :
    (["input", "b", "value"] ∈ taggedInputsOf "nonNull" fTwoPath ∧
      isNullAt raTwo.args ["input", "b", "value"] = true) ∧
    ((sortByLen (taggedInputsOf "nonNull" fTwoPath)).Pairwise (fun a b => a.length ≤ b.length) ∧
      (transformField "nonNull" dfrC fTwoPath).resolve
        = some (.wrapped (sortByLen (taggedInputsOf "nonNull" fTwoPath))
            (fTwoPath.resolve.getD (.fn dfrC))) ∧
      ∃ p, firstNullPath raTwo.args (sortByLen (taggedInputsOf "nonNull" fTwoPath)) = some p ∧
        p ∈ taggedInputsOf "nonNull" fTwoPath ∧ isNullAt raTwo.args p = true ∧
        (∀ r ∈ taggedInputsOf "nonNull" fTwoPath, isNullAt raTwo.args r = true →
          p.length ≤ r.length) ∧
        ∀ (buildErr : String → Value) (inner : Resolver),
          (Resolver.wrapped (sortByLen (taggedInputsOf "nonNull" fTwoPath)) inner).run buildErr raTwo
            = .error (buildErr (String.intercalate "." p ++ " cannot be null"))) :=
  ⟨⟨by decide, by decide⟩,
    c9_sorted_shallowest_reported "nonNull" dfrC fTwoPath raTwo ["input", "b", "value"]
      (by decide) (by decide)⟩

/-- C10: discovery unwraps exactly one outer non-null wrapper from each
argument type and each input-field type before the input-object test;
list wrappers are never unwrapped, the traversal never descends into list
element types, and a directive on a field reachable only through a list
position is never discovered. -/
theorem c10_one_unwrap_lists_opaque (dn : String) :
    (∀ t : GType, stripNonNull (.nonNull t) = t) ∧
    (∀ t : GType, stripNonNull (.glist t) = .glist t) ∧
    (∀ (t : GType) (pre : List String), checkInputObject dn (.glist t) pre = []) ∧
    (∀ (t : GType) (pre : List String), checkInputObject dn (.nonNull t) pre = []) ∧
    (∀ (name : String) (dirs : List String) (ty : GType) (rest : GFields) (pre : List String),
      checkFields dn (.fcons name dirs ty rest) pre
        = checkInputObject dn (stripNonNull ty) (pre ++ [name])
          ++ (if dirs.contains dn then [pre ++ [name]] else [])
          ++ checkFields dn rest pre) ∧
    (∀ (nm argName : String) (t : GType),
      taggedInputsOf dn { name := nm, args := [(argName, .nonNull t)], resolve := none }
        = checkInputObject dn t [argName]) ∧
    (checkInputObject dn
        (.inputObject "ListHolder"
          (.fcons "xs" []
            (.glist (.inputObject "Elem" (.fcons "v" [dn] (.scalar "S") .fnil))) .fnil))
        [] = []) := by
  refine ⟨fun t => rfl, fun t => rfl, fun t pre => rfl, fun t pre => rfl, ?_, ?_, rfl⟩
  · intro name dirs ty rest pre
    cases ty with
    | nonNull t => cases t <;> rfl
    | scalar n => rfl
    | glist t => rfl
    | inputObject n fs => rfl
  · intro nm argName t
    simp [taggedInputsOf, stripNonNull]

/-- Scenario A, end to end in the model: the wrapped resolver raises
"input.firstName cannot be null". -/
theorem scenarioA_message :
    Resolver.run buildErrC
        ((transformField "nonNull" dfrC fUpdateUser).resolve.getD (.fn dfrC)) raA
      = .error (.vstr "input.firstName cannot be null") := rfl

/-- Scenario B, end to end in the model: the wrapped resolver delegates
and the configured resolver's result comes back unmodified. -/
theorem scenarioB_proceeds :
    Resolver.run buildErrC
        ((transformField "nonNull" dfrC fUpdateUser).resolve.getD (.fn dfrC)) raB
      = .ok (.vstr "resolved") := rfl

/-- With both a shallow and a deep tagged path null, the scan returns the
shallow one. -/
theorem twoPath_shallow_first :
    firstNullPath raTwo.args (sortByLen (taggedInputsOf "nonNull" fTwoPath))
      = some ["input", "a"] := rfl

end GqlNonNull
